import Mathlib

/-!
Verification of the HwObs-LtOss bulk-migration engine.

Shallow embedding of the engine's pure logic, translated from the Python
source under `src/`:

* `src/core/oss_client.py`   — target-store client (`get_target_path`,
  `upload_file`, `upload_file_stream`);
* `src/core/obs_client.py`   — primary source provider (`list_objects`);
* `src/core/aliyun_oss_client.py` — secondary source provider (`list_objects`);
* `src/core/migrate_task.py` — per-object retry loop (`migrate_file`,
  `migrate_file_stream`, `should_use_streaming`);
* `src/core/migrate_manager.py` — worker loop and the round-robin
  interleaving of per-bucket file sequences (`start_migration`);
* `src/log/migrate_logger.py` — outcome counters, the failed-file report
  and its loader (`log_file_migrate`, `generate_daily_report`,
  `load_failed_list`).

Stores and the network are modelled by explicit environments; exceptions are
modelled with `Except`; Python strings are modelled by `String` or by
`List Char` where character-level reasoning is needed.
-/

namespace HwObsLtOss

/-! ## Python string primitives -/

/-- Character list, the model of a Python `str` when character-level
reasoning is needed. -/
abbrev Chars := List Char

/-- Drop the trailing run of characters satisfying `p` (Python
`str.rstrip` restricted to a fixed character set). -/
def dropTrailing (p : Char → Bool) (s : Chars) : Chars :=
  (s.reverse.dropWhile p).reverse

/-- Python `s.strip(c)` for a single character `c`: remove every leading and
trailing occurrence of `c`. -/
def pyStripChar (c : Char) (s : String) : String :=
  ⟨dropTrailing (fun x => x = c) (s.data.dropWhile (fun x => x = c))⟩

/-- Python `s.rstrip(c)`: remove every trailing occurrence of `c`. -/
def pyRstripChar (c : Char) (s : String) : String :=
  ⟨dropTrailing (fun x => x = c) s.data⟩

/-- Python `s.lstrip(c)`: remove every leading occurrence of `c`. -/
def pyLstripChar (c : Char) (s : String) : String :=
  ⟨s.data.dropWhile (fun x => x = c)⟩

/-- The characters Python's bare `str.strip()` removes: every character for
which `str.isspace()` is true — the ASCII whitespace `' \t\n\r\x0b\x0c'`, the
separator controls `'\x1c'`-`'\x1f'`, NEL `'\x85'`, NBSP `'\xa0'`, and the
Unicode space/line/paragraph separators. -/
def isPySpace (c : Char) : Bool :=
  c == ' ' || c == '\t' || c == '\n' || c == '\r' || c == '\x0b' || c == '\x0c' ||
  c == '\x1c' || c == '\x1d' || c == '\x1e' || c == '\x1f' ||
  c == '\x85' || c == '\xa0' || c == '\u1680' ||
  ('\u2000' ≤ c && c ≤ '\u200A') ||
  c == '\u2028' || c == '\u2029' || c == '\u202F' || c == '\u205F' || c == '\u3000'

/-- Python `s.strip()` on a character list: whitespace removed from both ends. -/
def pyStripWs (s : Chars) : Chars :=
  dropTrailing isPySpace (s.dropWhile isPySpace)

/-- Python `key.endswith(suf)`: exact, case-sensitive suffix test. -/
def endswith (key suf : String) : Bool :=
  List.isSuffixOf suf.data key.data

/-! ## Configuration defaults (`src/core/*.py`, `config_loader.get(...)`) -/

/-- Default chunk size: `chunk_size` default `5 * 1024 * 1024` (oss_client.py). -/
def default_chunk_size : Nat := 5 * 1024 * 1024

/-- Default streaming threshold: `streaming_threshold` default
`5 * 1024 * 1024 * 10` (migrate_task.py, `should_use_streaming`). -/
def default_streaming_threshold : Nat := 5 * 1024 * 1024 * 10

/-- Default retry attempt bound: `max_attempts` default `3` (migrate_task.py). -/
def default_max_attempts : Nat := 3

/-- Default retry interval: `interval` default `5` seconds (migrate_task.py). -/
def default_retry_interval : Nat := 5

/-! ## `MigrateTask.should_use_streaming` (migrate_task.py lines 184-201) -/

/-- `should_use_streaming(file_size)`: `file_size > streaming_threshold`. -/
def should_use_streaming (streamingThreshold fileSize : Nat) : Bool :=
  decide (streamingThreshold < fileSize)

/-! ## `OSSClient.get_target_path` (oss_client.py lines 220-233) -/

/-- Target key computation: if a target path head is configured (non-empty,
Python truthiness), strip its trailing slashes, strip the source key's leading
slashes and join with `/`; otherwise the source key unchanged. -/
def get_target_path (tgtPre : String) (obsPath : String) : String :=
  if tgtPre ≠ "" then
    pyRstripChar '/' tgtPre ++ "/" ++ pyLstripChar '/' obsPath
  else obsPath

/-! ## Discovery (`OBSClient.list_objects`, obs_client.py lines 57-129;
`AliyunOSSClient.list_objects`, aliyun_oss_client.py lines 62-97) -/

/-- A raw listing entry as returned by a provider SDK: `content.key`,
`content.size`, `content.etag` (the ETag still carries its quotes). -/
structure RawObj where
  key : String
  size : Nat
  etag : String
deriving DecidableEq, Repr

/-- A discovered file descriptor as yielded by `list_objects`:
`{"key": ..., "size": ..., "etag": ...}`. -/
structure FileInfo where
  key : String
  size : Nat
  etag : String
deriving DecidableEq, Repr

/-- The suffix-exclusion loop of both providers: iterate over the configured
excluded suffixes, the first one that `key.endswith(suffix)` matches decides
exclusion. -/
def first_matching_suffix (excludeSuffixes : List String) (key : String) : Option String :=
  excludeSuffixes.find? (fun suf => endswith key suf)

/-- An object key is excluded when some configured suffix matches. -/
def is_excluded_key (excludeSuffixes : List String) (key : String) : Bool :=
  (first_matching_suffix excludeSuffixes key).isSome

/-- Per-object behaviour of `OBSClient.list_objects` (obs_client.py lines
83-101): strip the ETag's quotes, then yield the descriptor unless the key
matches an excluded suffix.  No multipart-marker handling is performed. -/
def obs_emit (excludeSuffixes : List String) (o : RawObj) : Option FileInfo :=
  let etag := pyStripChar '"' o.etag
  if is_excluded_key excludeSuffixes o.key then none
  else some ⟨o.key, o.size, etag⟩

/-- Aliyun multipart-ETag handling (aliyun_oss_client.py lines 76-79): if the
quote-stripped ETag contains `-` (composite digest `base-partcount`), keep only
the part before the first `-` (Python `etag.split('-')[0]`). -/
def reduce_multipart_etag (etag : String) : String :=
  if etag.data.contains '-' then ⟨etag.data.takeWhile (fun c => c ≠ '-')⟩
  else etag

/-- Per-object behaviour of `AliyunOSSClient.list_objects` (aliyun_oss_client.py
lines 71-94): strip the ETag's quotes, reduce a composite multipart digest to
its base digest, then yield unless excluded by suffix. -/
def aliyun_emit (excludeSuffixes : List String) (o : RawObj) : Option FileInfo :=
  let etag := reduce_multipart_etag (pyStripChar '"' o.etag)
  if is_excluded_key excludeSuffixes o.key then none
  else some ⟨o.key, o.size, etag⟩

/-- `OBSClient.list_objects` over the full (already paginated) listing. -/
def obs_list_objects (excludeSuffixes : List String) (objs : List RawObj) : List FileInfo :=
  objs.filterMap (obs_emit excludeSuffixes)

/-- `AliyunOSSClient.list_objects` over the full listing. -/
def aliyun_list_objects (excludeSuffixes : List String) (objs : List RawObj) : List FileInfo :=
  objs.filterMap (aliyun_emit excludeSuffixes)

/-- A discovery session for one bucket mapping: a listing failure is logged
and re-raised (obs_client.py lines 123-129, aliyun_oss_client.py lines 95-97),
so an `Except.error` from the provider propagates to the caller. -/
def discovery_session (excludeSuffixes : List String)
    (listing : Except String (List RawObj)) : Except String (List FileInfo) :=
  match listing with
  | Except.ok objs => Except.ok (obs_list_objects excludeSuffixes objs)
  | Except.error msg => Except.error msg

/-! ## Target store and `OSSClient.upload_file` /
`OSSClient.upload_file_stream` (oss_client.py lines 254-387) -/

/-- The target-store environment visible to one `upload_file` call:
the existing objects (key to raw HEAD ETag, quotes included), and the status
and raw ETag the server would answer to a PUT of this object. -/
structure OssEnv where
  store : List (String × String)
  putStatus : Nat
  putEtag : String

/-- `object_exists` / `head_object` combined: the raw ETag stored at a key. -/
def lookup_object (store : List (String × String)) (key : String) : Option String :=
  (store.find? (fun p => p.1 == key)).map Prod.snd

/-- Result of an upload call: the `(success, error_msg)` pair returned by
`upload_file`, plus the list of keys actually PUT to the target. -/
structure UploadTrace where
  ok : Bool
  errMsg : String
  puts : List String
deriving DecidableEq, Repr

/-- The PUT-and-verify tail of `upload_file` (oss_client.py lines 287-318):
`_put_object`, then on status 200 compare the returned quote-stripped ETag
with the expected checksum. -/
def upload_put_once (env : OssEnv) (ossPath : String) (etag : String) : UploadTrace :=
  if env.putStatus = 200 then
    if pyStripChar '"' env.putEtag = etag then
      { ok := true, errMsg := "", puts := [ossPath] }
    else
      { ok := false, errMsg := "MD5验证失败（预期：" ++ etag ++ "，实际：" ++ pyStripChar '"' env.putEtag ++ "）",
        puts := [ossPath] }
  else
    { ok := false, errMsg := "上传失败，状态码：" ++ toString env.putStatus, puts := [ossPath] }

/-- The size dispatch of `upload_file` (oss_client.py lines 287-318): both the
small-file branch (`file_size <= chunk_size`) and the large-file branch issue
the same direct PUT (multipart upload is not implemented). -/
def upload_put (env : OssEnv) (chunkSize : Nat) (ossPath : String)
    (fileSize : Nat) (etag : String) : UploadTrace :=
  if fileSize ≤ chunkSize then upload_put_once env ossPath etag
  else upload_put_once env ossPath etag

/-- `OSSClient.upload_file` (oss_client.py lines 254-335), error-free
transport: resolve the target key, and if an object already exists there whose
quote-stripped ETag equals the expected checksum, skip with `(True, "")` and
no PUT; otherwise PUT and verify. -/
def upload_file (env : OssEnv) (chunkSize : Nat) (tgtPre : String)
    (obsPath : String) (fileSize : Nat) (etag : String) : UploadTrace :=
  let ossPath := get_target_path tgtPre obsPath
  match lookup_object env.store ossPath with
  | some rawEtag =>
    if pyStripChar '"' rawEtag = etag then { ok := true, errMsg := "", puts := [] }
    else upload_put env chunkSize ossPath fileSize etag
  | none => upload_put env chunkSize ossPath fileSize etag

/-- `OSSClient.upload_file_stream` (oss_client.py lines 337-387): same
existence/checksum skip, otherwise read the stream and delegate to
`upload_file`. -/
def upload_file_stream (env : OssEnv) (chunkSize : Nat) (tgtPre : String)
    (obsPath : String) (fileSize : Nat) (etag : String) : UploadTrace :=
  let ossPath := get_target_path tgtPre obsPath
  match lookup_object env.store ossPath with
  | some rawEtag =>
    if pyStripChar '"' rawEtag = etag then { ok := true, errMsg := "", puts := [] }
    else upload_file env chunkSize tgtPre obsPath fileSize etag
  | none => upload_file env chunkSize tgtPre obsPath fileSize etag

/-! ## `MigrateTask.migrate_file` retry loop (migrate_task.py lines 41-106) -/

/-- What one attempt of `migrate_file` does once the loop body runs: either an
exception is raised somewhere in the body (`Except.error msg`), or the upload
returns its `(success, upload_error)` pair (`Except.ok (success, msg)`). -/
abbrev Attempt := Except String (Bool × String)

/-- The error message an attempt leaves in `error_msg`, `none` when the
attempt succeeds. -/
def attempt_fail_msg : Attempt → Option String
  | Except.ok (true, _) => none
  | Except.ok (false, msg) => some msg
  | Except.error msg => some msg

/-- Observable result of the `migrate_file` retry loop: number of loop
iterations, the final `success` flag and `error_msg`, and the sequence of
`time.sleep(retry_interval)` calls issued. -/
structure MigrateRun where
  attemptsMade : Nat
  success : Bool
  errorMsg : String
  sleeps : List Nat
deriving DecidableEq, Repr

/-- The `while attempt < self.max_retry and not success` loop of
`migrate_file`.  `remaining` is `max_retry - attempt`; attempt number
`attempt + 1` runs next.  A failing attempt stores its message in `error_msg`
and sleeps `retry_interval` unless it was the last attempt. -/
def migrate_loop (interval : Nat) (attempts : Nat → Attempt) :
    Nat → Nat → String → List Nat → MigrateRun
  | 0, attempt, errorMsg, sleeps => ⟨attempt, false, errorMsg, sleeps⟩
  | remaining + 1, attempt, errorMsg, sleeps =>
    match attempts (attempt + 1) with
    | Except.ok (true, _) => ⟨attempt + 1, true, errorMsg, sleeps⟩
    | Except.ok (false, msg) =>
      if remaining = 0 then ⟨attempt + 1, false, msg, sleeps⟩
      else migrate_loop interval attempts remaining (attempt + 1) msg (sleeps ++ [interval])
    | Except.error msg =>
      if remaining = 0 then ⟨attempt + 1, false, msg, sleeps⟩
      else migrate_loop interval attempts remaining (attempt + 1) msg (sleeps ++ [interval])

/-- `MigrateTask.migrate_file`'s loop with the initial state
`attempt = 0`, `success = False`, `error_msg = ""`. -/
def migrate_file (maxRetry interval : Nat) (attempts : Nat → Attempt) : MigrateRun :=
  migrate_loop interval attempts maxRetry 0 "" []

/-! ## `MigrateTask.migrate_file_stream` retry loop (migrate_task.py
lines 108-182) -/

/-- One attempt of `migrate_file_stream`: the stream fetch can fail with
`resp.status >= 300` (`getFail`), the upload can return `(False, msg)`
(`uploadFail`) or succeed (`ok`), or an exception can be raised (`exc`). -/
inductive StreamAttempt where
  | ok : StreamAttempt
  | getFail (msg : String) : StreamAttempt
  | uploadFail (msg : String) : StreamAttempt
  | exc (msg : String) : StreamAttempt
deriving DecidableEq, Repr

/-- The error message a stream attempt leaves in `error_msg`. -/
def stream_fail_msg : StreamAttempt → Option String
  | StreamAttempt.ok => none
  | StreamAttempt.getFail msg => some msg
  | StreamAttempt.uploadFail msg => some msg
  | StreamAttempt.exc msg => some msg

/-- The retry loop of `migrate_file_stream`, same shape as `migrate_loop`
with the extra stream-fetch failure branch. -/
def migrate_stream_loop (interval : Nat) (attempts : Nat → StreamAttempt) :
    Nat → Nat → String → List Nat → MigrateRun
  | 0, attempt, errorMsg, sleeps => ⟨attempt, false, errorMsg, sleeps⟩
  | remaining + 1, attempt, errorMsg, sleeps =>
    match attempts (attempt + 1) with
    | StreamAttempt.ok => ⟨attempt + 1, true, errorMsg, sleeps⟩
    | StreamAttempt.getFail msg =>
      if remaining = 0 then ⟨attempt + 1, false, msg, sleeps⟩
      else migrate_stream_loop interval attempts remaining (attempt + 1) msg (sleeps ++ [interval])
    | StreamAttempt.uploadFail msg =>
      if remaining = 0 then ⟨attempt + 1, false, msg, sleeps⟩
      else migrate_stream_loop interval attempts remaining (attempt + 1) msg (sleeps ++ [interval])
    | StreamAttempt.exc msg =>
      if remaining = 0 then ⟨attempt + 1, false, msg, sleeps⟩
      else migrate_stream_loop interval attempts remaining (attempt + 1) msg (sleeps ++ [interval])

/-- `MigrateTask.migrate_file_stream`'s loop with its initial state. -/
def migrate_file_stream (maxRetry interval : Nat) (attempts : Nat → StreamAttempt) : MigrateRun :=
  migrate_stream_loop interval attempts maxRetry 0 "" []

/-! ## Outcome recording (migrate_task.py lines 90-106,
migrate_logger.py lines 46-98) -/

/-- One `log_file_migrate` record: the fields of the JSONL entry that the
claims are about. -/
structure LogEntry where
  obsPath : String
  ossPath : String
  fileSize : Nat
  status : String
  errMsg : String
  bucket : String
deriving DecidableEq, Repr

/-- After the retry loop, `migrate_file` records exactly one
`log_file_migrate` entry (migrate_task.py lines 93-97): status `"success"` or
`"failed"`, carrying the final `error_msg`. -/
def migrate_file_result (maxRetry interval : Nat) (tgtPre bucket : String)
    (info : FileInfo) (attempts : Nat → Attempt) : MigrateRun × List LogEntry :=
  let run := migrate_file maxRetry interval attempts
  (run,
   [{ obsPath := info.key, ossPath := get_target_path tgtPre info.key,
      fileSize := info.size,
      status := if run.success then "success" else "failed",
      errMsg := run.errorMsg, bucket := bucket }])

/-- Same recording step for `migrate_file_stream` (migrate_task.py lines
166-173). -/
def migrate_stream_result (maxRetry interval : Nat) (tgtPre bucket : String)
    (info : FileInfo) (attempts : Nat → StreamAttempt) : MigrateRun × List LogEntry :=
  let run := migrate_file_stream maxRetry interval attempts
  (run,
   [{ obsPath := info.key, ossPath := get_target_path tgtPre info.key,
      fileSize := info.size,
      status := if run.success then "success" else "failed",
      errMsg := run.errorMsg, bucket := bucket }])

/-! ## Progress counters (`MigrateManager.worker`, migrate_manager.py lines
91-181; `MigrateLogger`, migrate_logger.py lines 20-131) -/

/-- Bump a per-bucket counter (`dict.get(b, 0) + 1`). -/
def bump (bucket : String) (f : String → Nat) : String → Nat :=
  fun b => if b = bucket then f b + 1 else f b

/-- `MigrateManager`'s progress fields: `total_files`, `processed_files`,
`bucket_total_files`, `bucket_processed_files`. -/
structure MgrState where
  totalFiles : Nat
  processed : Nat
  bucketTotal : String → Nat
  bucketProcessed : String → Nat

/-- `MigrateLogger`'s counters: `success_files`, `failed_files`,
`failed_list`, and the per-bucket `bucket_stats` maps. -/
structure LoggerState where
  successFiles : Nat
  failedFiles : Nat
  failedList : List (String × String)
  statTotal : String → Nat
  statSuccess : String → Nat
  statFailed : String → Nat

/-- `MigrateLogger.log_file_migrate` (migrate_logger.py lines 79-98): update
the global success/failed counters and failed list, and the per-bucket stats,
in one critical section. -/
def log_file_migrate (s : LoggerState) (bucket obsPath errMsg : String)
    (isSuccess : Bool) : LoggerState :=
  { successFiles := if isSuccess then s.successFiles + 1 else s.successFiles
    failedFiles := if isSuccess then s.failedFiles else s.failedFiles + 1
    failedList := if isSuccess then s.failedList else s.failedList ++ [(obsPath, errMsg)]
    statTotal := bump bucket s.statTotal
    statSuccess := if isSuccess then bump bucket s.statSuccess else s.statSuccess
    statFailed := if isSuccess then s.statFailed else bump bucket s.statFailed }

/-- One task processed by `MigrateManager.worker`: either the migrate call
returned and its single outcome entry was logged (`outcome`), or the worker
body raised before/around the migrate call and fell into the `except` branch
of migrate_manager.py lines 171-181, which increments the progress counters
without recording any outcome (`exc`). -/
inductive WorkerEvent where
  | outcome (bucket obsPath errMsg : String) (isSuccess : Bool) : WorkerEvent
  | exc (bucket : String) : WorkerEvent
deriving DecidableEq, Repr

/-- The source bucket a worker event belongs to. -/
def event_bucket : WorkerEvent → String
  | WorkerEvent.outcome bucket _ _ _ => bucket
  | WorkerEvent.exc bucket => bucket

/-- Whether the event recorded an outcome (no worker-level exception). -/
def event_records_outcome : WorkerEvent → Bool
  | WorkerEvent.outcome _ _ _ _ => true
  | WorkerEvent.exc _ => false

/-- One worker iteration's counter updates: both the normal path
(migrate_manager.py lines 161-166) and the exception path (lines 171-181)
increment `processed_files` and the task's bucket counter; only the normal
path has logged an outcome. -/
def worker_step (st : MgrState × LoggerState) (e : WorkerEvent) : MgrState × LoggerState :=
  match e with
  | WorkerEvent.outcome bucket obsPath errMsg isSuccess =>
    ({ st.1 with processed := st.1.processed + 1,
                 bucketProcessed := bump bucket st.1.bucketProcessed },
     log_file_migrate st.2 bucket obsPath errMsg isSuccess)
  | WorkerEvent.exc bucket =>
    ({ st.1 with processed := st.1.processed + 1,
                 bucketProcessed := bump bucket st.1.bucketProcessed },
     st.2)

/-- Worker-side handling of one claimed task: an exception anywhere in the
body is caught (migrate_manager.py line 171), the counters advance by one and
the worker returns normally either way; an `Except.error` never escapes. -/
def worker_handle (res : Except String LogEntry) : Nat × List LogEntry :=
  match res with
  | Except.ok entry => (1, [entry])
  | Except.error _ => (1, [])

/-- Initial run state (`start_migration`, migrate_manager.py lines 556-581):
totals set from the collected task list before processing starts. -/
def init_state (tasks : List WorkerEvent) : MgrState × LoggerState :=
  ({ totalFiles := tasks.length, processed := 0,
     bucketTotal := fun b => (tasks.filter (fun e => event_bucket e = b)).length,
     bucketProcessed := fun _ => 0 },
   { successFiles := 0, failedFiles := 0, failedList := [],
     statTotal := fun _ => 0, statSuccess := fun _ => 0, statFailed := fun _ => 0 })

/-- A complete run over the enqueued tasks: every task is claimed by exactly
one worker and produces exactly one counter update. -/
def run_migration (tasks : List WorkerEvent) : MgrState × LoggerState :=
  tasks.foldl worker_step (init_state tasks)

/-! ## Round-robin interleaving (`MigrateManager.start_migration`,
migrate_manager.py lines 519-554) -/

/-- Sum of queue lengths is unchanged when an empty queue is removed
(termination helper for `rr_go`). -/
theorem sumLen_eraseIdx {α : Type} :
    ∀ (l : List (List α)) (j : Nat), j < l.length → l.getD j [] = [] →
      (((l.eraseIdx j).map List.length).sum = ((l.map List.length)).sum) := by
  intro l
  induction l with
  | nil => intro j hj _; simp at hj
  | cons a l ih =>
    intro j hj hget
    cases j with
    | zero =>
      simp only [List.getD, List.get?, Option.getD] at hget
      simp [List.eraseIdx, hget]
    | succ k =>
      have hk : k < l.length := by simpa using hj
      have hget' : l.getD k [] = [] := by simpa [List.getD] using hget
      simp [List.eraseIdx, ih k hk hget']

/-- Sum of queue lengths drops by one when the head of a queue is consumed. -/
theorem sumLen_set {α : Type} :
    ∀ (l : List (List α)) (j : Nat) (x : α) (rest : List α),
      j < l.length → l.getD j [] = x :: rest →
      (((l.set j rest).map List.length).sum + 1 = ((l.map List.length)).sum) := by
  intro l
  induction l with
  | nil => intro j x rest hj _; simp at hj
  | cons a l ih =>
    intro j x rest hj hget
    cases j with
    | zero =>
      simp only [List.getD, List.get?, Option.getD] at hget
      simp [List.set, hget, Nat.add_assoc, Nat.add_comm, Nat.add_left_comm]
    | succ k =>
      have hk : k < l.length := by simpa using hj
      have hget' : l.getD k [] = x :: rest := by simpa [List.getD] using hget
      have := ih k x rest hk hget'
      simp only [List.set, List.map, List.sum_cons]
      omega

/-- Removing an element shortens the list (termination helper). -/
theorem length_eraseIdx_lt {α : Type} :
    ∀ (l : List α) (j : Nat), j < l.length → (l.eraseIdx j).length < l.length := by
  intro l
  induction l with
  | nil => intro j hj; simp at hj
  | cons a l ih =>
    intro j hj
    cases j with
    | zero => simp [List.eraseIdx]
    | succ k =>
      have hk : k < l.length := by simpa using hj
      simpa [List.eraseIdx, Nat.succ_lt_succ_iff] using ih k hk

/-- The multi-bucket task-collection loop of `start_migration`
(migrate_manager.py lines 519-554): `bs` is the list of per-bucket pending
file sequences, `i` is `bucket_index`.  Each iteration wraps the index, takes
the next file of the current bucket (advancing the index round-robin), and on
`StopIteration` removes the exhausted bucket keeping the index in place. -/
def rr_go {α : Type} : List (List α) → Nat → List α
  | [], _ => []
  | b :: bs, i =>
    let l := b :: bs
    let j := if i < l.length then i else 0
    match hq : l.getD j [] with
    | [] => rr_go (l.eraseIdx j) j
    | x :: rest => x :: rr_go (l.set j rest) ((j + 1) % l.length)
termination_by bs _ => 2 * ((bs.map List.length).sum) + bs.length
decreasing_by
  all_goals simp only [dite_eq_ite] at *
  · have hj : (if i < (b :: bs).length then i else 0) < (b :: bs).length := by
      split
      · assumption
      · exact Nat.succ_pos bs.length
    have h1 := sumLen_eraseIdx (b :: bs) _ hj hq
    have h2 := length_eraseIdx_lt (b :: bs) _ hj
    omega
  · have hj : (if i < (b :: bs).length then i else 0) < (b :: bs).length := by
      split
      · assumption
      · exact Nat.succ_pos bs.length
    have h1 := sumLen_set (b :: bs) _ x rest hj hq
    have h2 : ((b :: bs).set (if i < (b :: bs).length then i else 0) rest).length
        = (b :: bs).length := List.length_set ..
    omega

/-- The interleaving as invoked: `bucket_index` starts at 0. -/
def rr_interleave {α : Type} (buckets : List (List α)) : List α :=
  rr_go buckets 0

/-! ## Failed-file report round trip (`MigrateLogger.generate_daily_report`
lines 156-163; `MigrateLogger.load_failed_list` lines 165-191) -/

/-- The failed-file report body written by `generate_daily_report`: for each
recorded failed entry, the line `obs_path + "\t" + error_msg + "\n"`. -/
def failed_report_content (failedList : List (Chars × Chars)) : Chars :=
  (failedList.map (fun p => p.1 ++ '\t' :: p.2 ++ ['\n'])).flatten

/-- Iterating over a text file's lines: `load_failed_list` opens the file in
text mode with universal newlines, so `'\n'`, `'\r'` and the pair `'\r\n'`
each terminate a line.  The parser strips each line, so keeping or dropping
the terminator itself is immaterial. -/
def splitLinesAux : Chars → Chars → List Chars
  | [], acc => [acc.reverse]
  | '\n' :: cs, acc => acc.reverse :: splitLinesAux cs []
  | '\r' :: '\n' :: cs, acc => acc.reverse :: splitLinesAux cs []
  | '\r' :: cs, acc => acc.reverse :: splitLinesAux cs []
  | c :: cs, acc => splitLinesAux cs (c :: acc)

/-- All lines of a file's content under universal-newlines reading. -/
def splitLines (content : Chars) : List Chars :=
  splitLinesAux content []

/-- Python `s.split('\t', 1)` when it yields two parts: split at the first
tab.  `none` when `s` contains no tab (the two-variable unpacking in
`load_failed_list` then raises `ValueError`). -/
def splitFirstTab : Chars → Option (Chars × Chars)
  | [] => none
  | c :: cs =>
    if c = '\t' then some ([], cs)
    else
      match splitFirstTab cs with
      | none => none
      | some (a, b) => some (c :: a, b)

/-- One iteration of the `load_failed_list` reading loop: strip the line;
skip it when blank; otherwise unpack `line.strip().split('\t', 1)` into
`(obs_path, error_msg)`, raising (`Except.error`) when there is no tab. -/
def parse_failed_line (line : Chars) : Except Unit (Option (Chars × Chars)) :=
  let s := pyStripWs line
  if s = [] then Except.ok none
  else
    match splitFirstTab s with
    | some (a, b) => Except.ok (some (a, b))
    | none => Except.error ()

/-- The reading loop over all lines: collect parsed entries in order, abort
with the exception when a line fails to unpack. -/
def load_failed_aux : List Chars → Except Unit (List (Chars × Chars))
  | [] => Except.ok []
  | line :: rest =>
    match parse_failed_line line with
    | Except.error e => Except.error e
    | Except.ok none => load_failed_aux rest
    | Except.ok (some p) =>
      match load_failed_aux rest with
      | Except.error e => Except.error e
      | Except.ok l => Except.ok (p :: l)

/-- `MigrateLogger.load_failed_list` applied to a failed-file report's
content. -/
def load_failed_list (content : Chars) : Except Unit (List (Chars × Chars)) :=
  load_failed_aux (splitLines content)

/-- A character list whose first character exists and is not Python
whitespace (so a leading `str.strip()` leaves it intact). -/
def noLeadWs : Chars → Bool
  | [] => false
  | c :: _ => !isPySpace c

/-- A character list whose last character exists and is not Python
whitespace. -/
def noTrailWs (s : Chars) : Bool :=
  noLeadWs s.reverse

/-! # Theorems -/

/-- C4: for all object sizes `s`, `should_use_streaming` returns true exactly
when `s` is strictly greater than the configured streaming threshold; at the
boundary `s = threshold` it returns false; and the default threshold is ten
times the default chunk size, i.e. 50MB.  The Lean model is a pure function,
matching the side-effect-free Python code. -/
theorem c4_should_use_streaming_strict (streshold fileSize : Nat) :
    (should_use_streaming streshold fileSize = true ↔ streshold < fileSize) ∧
    should_use_streaming streshold streshold = false ∧
    default_streaming_threshold = 10 * default_chunk_size ∧
    default_streaming_threshold = 50 * 1024 * 1024 := by
  refine ⟨?_, ?_, by decide, by decide⟩
  · simp [should_use_streaming]
  · simp [should_use_streaming]

/-- C9: the computed target key equals the mapping's target path head with
trailing slashes stripped, joined by `/` to the source key with leading
slashes stripped; with no configured target path head the key is unchanged. -/
theorem c9_get_target_path_shape (tgtPre key : String) :
    (tgtPre = "" → get_target_path tgtPre key = key) ∧
    (tgtPre ≠ "" →
      get_target_path tgtPre key =
        pyRstripChar '/' tgtPre ++ "/" ++ pyLstripChar '/' key) := by
  constructor
  · intro h; simp [get_target_path, h]
  · intro h; simp [get_target_path, h]

/-- Witness for C9 at concrete inputs. -/
theorem c9_get_target_path_shape_witness :
    get_target_path "" "a/b.txt" = "a/b.txt" ∧
    get_target_path "dst//" "/a/b.txt" = "dst/a/b.txt" := by
  constructor
  · exact (c9_get_target_path_shape "" "a/b.txt").1 rfl
  · have h := (c9_get_target_path_shape "dst//" "/a/b.txt").2 (by decide)
    rw [h]; rfl

/-- C1: when the target bucket already holds an object at the computed target
key whose stored quote-stripped ETag equals the source descriptor's checksum,
both `upload_file` and `upload_file_stream` perform zero PUTs and return the
skipped-as-success result `(True, "")`. -/
theorem c1_skip_when_checksum_matches
    (env : OssEnv) (chunkSize : Nat) (tgtPre obsPath : String) (fileSize : Nat)
    (etag rawEtag : String)
    (hex : lookup_object env.store (get_target_path tgtPre obsPath) = some rawEtag)
    (hmatch : pyStripChar '"' rawEtag = etag) :
    upload_file env chunkSize tgtPre obsPath fileSize etag =
      { ok := true, errMsg := "", puts := [] } ∧
    upload_file_stream env chunkSize tgtPre obsPath fileSize etag =
      { ok := true, errMsg := "", puts := [] } := by
  constructor
  · simp [upload_file, hex, hmatch]
  · simp [upload_file_stream, hex, hmatch]

/-- Witness for C1 at a concrete store. -/
theorem c1_skip_when_checksum_matches_witness :
    lookup_object [("k.txt", "\"abc\"")] (get_target_path "" "k.txt") = some "\"abc\"" ∧
    pyStripChar '"' "\"abc\"" = "abc" ∧
    upload_file ⟨[("k.txt", "\"abc\"")], 200, "\"zzz\""⟩ default_chunk_size "" "k.txt" 3 "abc" =
      { ok := true, errMsg := "", puts := [] } ∧
    upload_file_stream ⟨[("k.txt", "\"abc\"")], 200, "\"zzz\""⟩ default_chunk_size "" "k.txt" 3 "abc" =
      { ok := true, errMsg := "", puts := [] } := by
  refine ⟨by decide, by decide, ?_, ?_⟩
  · exact (c1_skip_when_checksum_matches ⟨[("k.txt", "\"abc\"")], 200, "\"zzz\""⟩
      default_chunk_size "" "k.txt" 3 "abc" "\"abc\"" (by decide) (by decide)).1
  · exact (c1_skip_when_checksum_matches ⟨[("k.txt", "\"abc\"")], 200, "\"zzz\""⟩
      default_chunk_size "" "k.txt" 3 "abc" "\"abc\"" (by decide) (by decide)).2

/-- A key is excluded exactly when some configured suffix is a suffix of it. -/
theorem is_excluded_key_iff (excludeSuffixes : List String) (key : String) :
    is_excluded_key excludeSuffixes key = true ↔
      ∃ suf ∈ excludeSuffixes, List.IsSuffix suf.data key.data := by
  rw [is_excluded_key, first_matching_suffix, List.find?_isSome]
  constructor
  · rintro ⟨suf, hmem, hend⟩
    exact ⟨suf, hmem, by simpa [endswith] using hend⟩
  · rintro ⟨suf, hmem, hend⟩
    exact ⟨suf, hmem, by simpa [endswith] using hend⟩

/-- C5: a listed object is excluded from the emitted descriptors if and only
if its key ends with at least one configured suffix (exact, case-sensitive
character-for-character suffix match), for both source providers. -/
theorem c5_suffix_exclusion (excludeSuffixes : List String) (o : RawObj) :
    (obs_emit excludeSuffixes o = none ↔
      ∃ suf ∈ excludeSuffixes, List.IsSuffix suf.data o.key.data) ∧
    (aliyun_emit excludeSuffixes o = none ↔
      ∃ suf ∈ excludeSuffixes, List.IsSuffix suf.data o.key.data) := by
  rw [← is_excluded_key_iff excludeSuffixes o.key]
  constructor
  · rw [obs_emit]
    cases h : is_excluded_key excludeSuffixes o.key <;> simp [h]
  · rw [aliyun_emit]
    cases h : is_excluded_key excludeSuffixes o.key <;> simp [h]

/-- C6 counterexample: the primary (OBS) provider only strips quotes and does
not reduce a composite multipart digest, so a descriptor can carry the raw
`base-partcount` checksum, not the reduced base the claim requires. -/
theorem c6_counterexample_obs_multipart_not_reduced :
    obs_emit [] ⟨"k", 1, "\"abc-2\""⟩ = some ⟨"k", 1, "abc-2"⟩ ∧
    reduce_multipart_etag (pyStripChar '"' "\"abc-2\"") = "abc" ∧
    ("abc-2" : String) ≠ "abc" := by
  exact ⟨by decide, by decide, by decide⟩

/-- C6 amended: every descriptor's checksum has the surrounding quotes
removed by both providers; only the secondary (Aliyun) provider additionally
reduces a composite `base-partcount` digest to its base digest, while the
primary (OBS) provider keeps the quote-stripped digest as is. -/
theorem c6_amended_checksum_normalization (excludeSuffixes : List String) (o : RawObj) :
    (aliyun_emit excludeSuffixes o).map FileInfo.etag =
      (if is_excluded_key excludeSuffixes o.key then none
       else some (reduce_multipart_etag (pyStripChar '"' o.etag))) ∧
    (obs_emit excludeSuffixes o).map FileInfo.etag =
      (if is_excluded_key excludeSuffixes o.key then none
       else some (pyStripChar '"' o.etag)) := by
  constructor
  · rw [aliyun_emit]
    cases h : is_excluded_key excludeSuffixes o.key <;> simp [h]
  · rw [obs_emit]
    cases h : is_excluded_key excludeSuffixes o.key <;> simp [h]

/-- C7: every object-level outcome of a transfer — including one whose every
attempt raised an exception, which `migrate_file` absorbs into a total result —
is converted into exactly one recorded `log_file_migrate` entry carrying the
status and the final error text; a worker absorbs a raised task error into a
normal return with no propagation (and no second record); a discovery-session
listing error, by contrast, propagates to the caller unchanged. -/
theorem c7_object_errors_contained :
    (∀ maxRetry interval tgtPre bucket info attempts,
      (migrate_file_result maxRetry interval tgtPre bucket info attempts).2 =
        [{ obsPath := info.key, ossPath := get_target_path tgtPre info.key,
           fileSize := info.size,
           status := if (migrate_file maxRetry interval attempts).success
                     then "success" else "failed",
           errMsg := (migrate_file maxRetry interval attempts).errorMsg,
           bucket := bucket }]) ∧
    (∀ maxRetry interval tgtPre bucket info streamAttempts,
      (migrate_stream_result maxRetry interval tgtPre bucket info streamAttempts).2.length = 1) ∧
    (∀ entry, worker_handle (Except.ok entry) = (1, [entry])) ∧
    (∀ msg, worker_handle (Except.error msg) = (1, [])) ∧
    (∀ excludeSuffixes msg,
      discovery_session excludeSuffixes (Except.error msg) = Except.error msg) := by
  exact ⟨fun _ _ _ _ _ _ => rfl, fun _ _ _ _ _ _ => rfl,
         fun _ => rfl, fun _ => rfl, fun _ _ => rfl⟩

/-- When every attempt in range fails, the `migrate_file` loop runs through
all remaining attempts, ends unsuccessful with the last attempt's message, and
sleeps once between consecutive attempts (never after the last). -/
theorem migrate_loop_all_fail (interval : Nat) (attempts : Nat → Attempt) :
    ∀ (remaining attempt : Nat) (errorMsg : String) (sleeps : List Nat),
      1 ≤ remaining →
      (∀ i, attempt < i → i ≤ attempt + remaining → attempt_fail_msg (attempts i) ≠ none) →
      (migrate_loop interval attempts remaining attempt errorMsg sleeps).attemptsMade
          = attempt + remaining ∧
      (migrate_loop interval attempts remaining attempt errorMsg sleeps).success = false ∧
      some (migrate_loop interval attempts remaining attempt errorMsg sleeps).errorMsg
          = attempt_fail_msg (attempts (attempt + remaining)) ∧
      (migrate_loop interval attempts remaining attempt errorMsg sleeps).sleeps
          = sleeps ++ List.replicate (remaining - 1) interval := by
  intro remaining
  induction remaining with
  | zero => intro attempt errorMsg sleeps h _; omega
  | succ r ih =>
    intro attempt errorMsg sleeps _ hfail
    have hcur : attempt_fail_msg (attempts (attempt + 1)) ≠ none :=
      hfail _ (by omega) (by omega)
    rcases hA : attempts (attempt + 1) with m | ⟨b, m⟩
    · by_cases hr : r = 0
      · subst hr
        simp [migrate_loop, hA, attempt_fail_msg]
      · have h1r : 1 ≤ r := by omega
        have hfail' : ∀ i, attempt + 1 < i → i ≤ attempt + 1 + r →
            attempt_fail_msg (attempts i) ≠ none := by
          intro i h1 h2; exact hfail i (by omega) (by omega)
        have hrec := ih (attempt + 1) m (sleeps ++ [interval]) h1r hfail'
        have hadd : attempt + 1 + r = attempt + (r + 1) := by omega
        rw [hadd] at hrec
        have hrep : List.replicate (r + 1 - 1) interval
            = interval :: List.replicate (r - 1) interval := by
          have : r + 1 - 1 = (r - 1) + 1 := by omega
          rw [this, List.replicate_succ]
        simp only [migrate_loop, hA, if_neg hr]
        exact ⟨hrec.1, hrec.2.1, hrec.2.2.1, by
          rw [hrec.2.2.2, hrep]; simp⟩
    · cases b
      · by_cases hr : r = 0
        · subst hr
          simp [migrate_loop, hA, attempt_fail_msg]
        · have h1r : 1 ≤ r := by omega
          have hfail' : ∀ i, attempt + 1 < i → i ≤ attempt + 1 + r →
              attempt_fail_msg (attempts i) ≠ none := by
            intro i h1 h2; exact hfail i (by omega) (by omega)
          have hrec := ih (attempt + 1) m (sleeps ++ [interval]) h1r hfail'
          have hadd : attempt + 1 + r = attempt + (r + 1) := by omega
          rw [hadd] at hrec
          have hrep : List.replicate (r + 1 - 1) interval
              = interval :: List.replicate (r - 1) interval := by
            have : r + 1 - 1 = (r - 1) + 1 := by omega
            rw [this, List.replicate_succ]
          simp only [migrate_loop, hA, if_neg hr]
          exact ⟨hrec.1, hrec.2.1, hrec.2.2.1, by
            rw [hrec.2.2.2, hrep]; simp⟩
      · exfalso
        simp [attempt_fail_msg, hA] at hcur

/-- Stream-loop analogue of `migrate_loop_all_fail`. -/
theorem migrate_stream_loop_all_fail (interval : Nat) (attempts : Nat → StreamAttempt) :
    ∀ (remaining attempt : Nat) (errorMsg : String) (sleeps : List Nat),
      1 ≤ remaining →
      (∀ i, attempt < i → i ≤ attempt + remaining → stream_fail_msg (attempts i) ≠ none) →
      (migrate_stream_loop interval attempts remaining attempt errorMsg sleeps).attemptsMade
          = attempt + remaining ∧
      (migrate_stream_loop interval attempts remaining attempt errorMsg sleeps).success = false ∧
      some (migrate_stream_loop interval attempts remaining attempt errorMsg sleeps).errorMsg
          = stream_fail_msg (attempts (attempt + remaining)) ∧
      (migrate_stream_loop interval attempts remaining attempt errorMsg sleeps).sleeps
          = sleeps ++ List.replicate (remaining - 1) interval := by
  intro remaining
  induction remaining with
  | zero => intro attempt errorMsg sleeps h _; omega
  | succ r ih =>
    intro attempt errorMsg sleeps _ hfail
    have hcur : stream_fail_msg (attempts (attempt + 1)) ≠ none :=
      hfail _ (by omega) (by omega)
    have step : ∀ m, attempts (attempt + 1) = StreamAttempt.getFail m ∨
        attempts (attempt + 1) = StreamAttempt.uploadFail m ∨
        attempts (attempt + 1) = StreamAttempt.exc m →
        (migrate_stream_loop interval attempts (r + 1) attempt errorMsg sleeps
          = if r = 0 then ⟨attempt + 1, false, m, sleeps⟩
            else migrate_stream_loop interval attempts r (attempt + 1) m
                   (sleeps ++ [interval])) := by
      intro m hm
      rcases hm with h | h | h <;> simp [migrate_stream_loop, h]
    have tail : ∀ m, stream_fail_msg (attempts (attempt + 1)) = some m →
        (migrate_stream_loop interval attempts (r + 1) attempt errorMsg sleeps
          = if r = 0 then ⟨attempt + 1, false, m, sleeps⟩
            else migrate_stream_loop interval attempts r (attempt + 1) m
                   (sleeps ++ [interval])) := by
      intro m hm
      apply step m
      rcases hA : attempts (attempt + 1) with _ | x | x | x <;>
        rw [hA] at hm <;> simp [stream_fail_msg] at hm <;> simp [hm]
    rcases Option.ne_none_iff_exists'.mp hcur with ⟨m, hm⟩
    rw [tail m hm]
    by_cases hr : r = 0
    · subst hr
      rw [if_pos rfl]
      refine ⟨rfl, rfl, ?_, by simp⟩
      rw [show attempt + (0 + 1) = attempt + 1 by omega, hm]
    · have h1r : 1 ≤ r := by omega
      have hfail' : ∀ i, attempt + 1 < i → i ≤ attempt + 1 + r →
          stream_fail_msg (attempts i) ≠ none := by
        intro i h1 h2; exact hfail i (by omega) (by omega)
      have hrec := ih (attempt + 1) m (sleeps ++ [interval]) h1r hfail'
      have hadd : attempt + 1 + r = attempt + (r + 1) := by omega
      rw [hadd] at hrec
      have hrep : List.replicate (r + 1 - 1) interval
          = interval :: List.replicate (r - 1) interval := by
        have : r + 1 - 1 = (r - 1) + 1 := by omega
        rw [this, List.replicate_succ]
      rw [if_neg hr]
      exact ⟨hrec.1, hrec.2.1, hrec.2.2.1, by rw [hrec.2.2.2, hrep]; simp⟩

/-- C2: for a task whose every attempt fails, `migrate_file` (and
`migrate_file_stream`) performs exactly `max_attempts` attempts (default 3),
sleeps the fixed retry interval exactly between consecutive attempts (that is,
`max_attempts - 1` times, never after the last attempt), and records one
Failed outcome carrying the final attempt's error. -/
theorem c2_exhausted_retries (maxRetry interval : Nat)
    (attempts : Nat → Attempt) (streamAttempts : Nat → StreamAttempt)
    (tgtPre bucket : String) (info : FileInfo)
    (hmax : 1 ≤ maxRetry)
    (hfail : ∀ i, 1 ≤ i → i ≤ maxRetry → attempt_fail_msg (attempts i) ≠ none)
    (hsfail : ∀ i, 1 ≤ i → i ≤ maxRetry → stream_fail_msg (streamAttempts i) ≠ none) :
    (migrate_file maxRetry interval attempts).attemptsMade = maxRetry ∧
    (migrate_file maxRetry interval attempts).success = false ∧
    some (migrate_file maxRetry interval attempts).errorMsg
        = attempt_fail_msg (attempts maxRetry) ∧
    (migrate_file maxRetry interval attempts).sleeps
        = List.replicate (maxRetry - 1) interval ∧
    (migrate_file_stream maxRetry interval streamAttempts).attemptsMade = maxRetry ∧
    (migrate_file_stream maxRetry interval streamAttempts).success = false ∧
    some (migrate_file_stream maxRetry interval streamAttempts).errorMsg
        = stream_fail_msg (streamAttempts maxRetry) ∧
    (migrate_file_stream maxRetry interval streamAttempts).sleeps
        = List.replicate (maxRetry - 1) interval ∧
    (migrate_file_result maxRetry interval tgtPre bucket info attempts).2.map LogEntry.status
        = ["failed"] ∧
    (migrate_file_result maxRetry interval tgtPre bucket info attempts).2.map LogEntry.errMsg
        = [(migrate_file maxRetry interval attempts).errorMsg] ∧
    default_max_attempts = 3 := by
  have h1 : (migrate_file maxRetry interval attempts).attemptsMade = maxRetry ∧
      (migrate_file maxRetry interval attempts).success = false ∧
      some (migrate_file maxRetry interval attempts).errorMsg
          = attempt_fail_msg (attempts maxRetry) ∧
      (migrate_file maxRetry interval attempts).sleeps
          = List.replicate (maxRetry - 1) interval := by
    have h := migrate_loop_all_fail interval attempts maxRetry 0 "" [] hmax
      (by intro i hi1 hi2; exact hfail i (by omega) (by omega))
    simp only [Nat.zero_add, List.nil_append] at h
    exact h
  have h2 : (migrate_file_stream maxRetry interval streamAttempts).attemptsMade = maxRetry ∧
      (migrate_file_stream maxRetry interval streamAttempts).success = false ∧
      some (migrate_file_stream maxRetry interval streamAttempts).errorMsg
          = stream_fail_msg (streamAttempts maxRetry) ∧
      (migrate_file_stream maxRetry interval streamAttempts).sleeps
          = List.replicate (maxRetry - 1) interval := by
    have h := migrate_stream_loop_all_fail interval streamAttempts maxRetry 0 "" [] hmax
      (by intro i hi1 hi2; exact hsfail i (by omega) (by omega))
    simp only [Nat.zero_add, List.nil_append] at h
    exact h
  refine ⟨h1.1, h1.2.1, h1.2.2.1, h1.2.2.2, h2.1, h2.2.1, h2.2.2.1, h2.2.2.2, ?_, ?_, rfl⟩
  · simp [migrate_file_result, h1.2.1]
  · simp [migrate_file_result]

/-- Witness for C2: with `max_attempts = 3`, an always-raising plain transfer
and an always-failing stream fetch, both loops make exactly 3 attempts, sleep
twice, and record the final error. -/
theorem c2_exhausted_retries_witness :
    (migrate_file 3 5 (fun _ => Except.error "boom")).attemptsMade = 3 ∧
    (migrate_file 3 5 (fun _ => Except.error "boom")).sleeps = [5, 5] ∧
    (migrate_file 3 5 (fun _ => Except.error "boom")).errorMsg = "boom" ∧
    (migrate_file_stream 3 5 (fun _ => StreamAttempt.getFail "net")).attemptsMade = 3 ∧
    (migrate_file_stream 3 5 (fun _ => StreamAttempt.getFail "net")).sleeps = [5, 5] := by
  have h := c2_exhausted_retries 3 5 (fun _ => Except.error "boom")
    (fun _ => StreamAttempt.getFail "net") "" "bkt" ⟨"k", 1, "e"⟩
    (by omega)
    (by intro i h1 h2; simp [attempt_fail_msg])
    (by intro i h1 h2; simp [stream_fail_msg])
  refine ⟨h.1, ?_, ?_, h.2.2.2.2.1, ?_⟩
  · rw [h.2.2.2.1]; rfl
  · have := h.2.2.1
    simp [attempt_fail_msg] at this
    exact this
  · rw [h.2.2.2.2.2.2.2.1]; rfl

/-- The processed/succeeded/failed consistency invariant between the
manager's counters and the logger's counters. -/
def counters_consistent (st : MgrState × LoggerState) : Prop :=
  st.1.processed = st.2.successFiles + st.2.failedFiles ∧
  ∀ b, st.1.bucketProcessed b = st.2.statSuccess b + st.2.statFailed b

/-- A worker step that records an outcome preserves counter consistency. -/
theorem counters_consistent_foldl :
    ∀ (l : List WorkerEvent) (st : MgrState × LoggerState),
      counters_consistent st → (∀ e ∈ l, event_records_outcome e = true) →
      counters_consistent (l.foldl worker_step st) := by
  intro l
  induction l with
  | nil => intro st h _; exact h
  | cons e l ih =>
    intro st h hall
    have he : event_records_outcome e = true := hall e (List.mem_cons_self e l)
    have hl : ∀ x ∈ l, event_records_outcome x = true :=
      fun x hx => hall x (List.mem_cons_of_mem e hx)
    refine ih (worker_step st e) ?_ hl
    rcases e with ⟨bucket, obsPath, errMsg, isSuccess⟩ | bucket
    · obtain ⟨hglob, hbuck⟩ := h
      constructor
      · cases isSuccess <;> simp [worker_step, log_file_migrate, hglob] <;> omega
      · intro b
        have hb0 := hbuck b
        by_cases hb : b = bucket
        · subst hb
          cases isSuccess <;> simp [worker_step, log_file_migrate, bump] <;> omega
        · cases isSuccess <;> simp [worker_step, log_file_migrate, bump, hb] <;> omega
    · simp [event_records_outcome] at he

/-- Every worker step, outcome or exception, advances `processed_files` by
one. -/
theorem processed_foldl :
    ∀ (l : List WorkerEvent) (st : MgrState × LoggerState),
      (l.foldl worker_step st).1.processed = st.1.processed + l.length := by
  intro l
  induction l with
  | nil => intro st; simp
  | cons e l ih =>
    intro st
    have hstep : (worker_step st e).1.processed = st.1.processed + 1 := by
      rcases e with ⟨bucket, obsPath, errMsg, isSuccess⟩ | bucket <;> rfl
    simp [List.foldl_cons, ih (worker_step st e), hstep]
    omega

/-- Every worker step advances the event's bucket counter by one. -/
theorem bucket_processed_foldl :
    ∀ (l : List WorkerEvent) (st : MgrState × LoggerState) (b : String),
      (l.foldl worker_step st).1.bucketProcessed b
        = st.1.bucketProcessed b + (l.filter (fun e => event_bucket e = b)).length := by
  intro l
  induction l with
  | nil => intro st b; simp
  | cons e l ih =>
    intro st b
    have hstep : (worker_step st e).1.bucketProcessed b
        = st.1.bucketProcessed b + (if event_bucket e = b then 1 else 0) := by
      rcases e with ⟨bucket, obsPath, errMsg, isSuccess⟩ | bucket <;>
        · simp only [worker_step, event_bucket, bump]
          by_cases hb : b = bucket
          · simp [hb]
          · have hb' : ¬ bucket = b := fun h => hb h.symm
            simp [hb, hb']
    rw [List.foldl_cons, ih (worker_step st e) b, hstep]
    by_cases hb : event_bucket e = b
    · simp [hb]; omega
    · simp [hb]

/-- Worker steps never change the totals fixed before processing started. -/
theorem totals_foldl :
    ∀ (l : List WorkerEvent) (st : MgrState × LoggerState),
      (l.foldl worker_step st).1.totalFiles = st.1.totalFiles ∧
      ∀ b, (l.foldl worker_step st).1.bucketTotal b = st.1.bucketTotal b := by
  intro l
  induction l with
  | nil => intro st; exact ⟨rfl, fun _ => rfl⟩
  | cons e l ih =>
    intro st
    have hstep : (worker_step st e).1.totalFiles = st.1.totalFiles ∧
        ∀ b, (worker_step st e).1.bucketTotal b = st.1.bucketTotal b := by
      rcases e with ⟨bucket, obsPath, errMsg, isSuccess⟩ | bucket <;>
        exact ⟨rfl, fun _ => rfl⟩
    obtain ⟨h1, h2⟩ := ih (worker_step st e)
    exact ⟨by rw [List.foldl_cons, h1, hstep.1],
         fun b => by rw [List.foldl_cons, h2 b, hstep.2 b]⟩

/-- C3 counterexample: a task whose worker body raises outside the migrate
call (the `except` branch of `MigrateManager.worker`, migrate_manager.py
lines 171-181) increments `processed_files` without recording any outcome, so
right after that counter update the processed count differs from succeeded
plus failed. -/
theorem c3_counterexample_worker_exception :
    (run_migration [WorkerEvent.exc "bucketA"]).1.processed ≠
      (run_migration [WorkerEvent.exc "bucketA"]).2.successFiles
        + (run_migration [WorkerEvent.exc "bucketA"]).2.failedFiles := by
  decide

/-- C3 amended: provided every processed task records an outcome (no
worker-level exception outside the transfer call), then after every counter
update the processed count equals succeeded plus failed, globally and for
every per-bucket counter; and once the run has stopped — every enqueued task
processed — processed equals total, globally and per bucket. -/
theorem c3_amended_counter_invariant (tasks : List WorkerEvent)
    (hall : ∀ e ∈ tasks, event_records_outcome e = true) :
    (∀ n, counters_consistent ((tasks.take n).foldl worker_step (init_state tasks))) ∧
    (run_migration tasks).1.processed = (run_migration tasks).1.totalFiles ∧
    ∀ b, (run_migration tasks).1.bucketProcessed b = (run_migration tasks).1.bucketTotal b := by
  have hinit : counters_consistent (init_state tasks) := by
    constructor
    · rfl
    · intro b; rfl
  refine ⟨?_, ?_, ?_⟩
  · intro n
    exact counters_consistent_foldl (tasks.take n) (init_state tasks) hinit
      (fun e he => hall e (List.take_subset n tasks he))
  · rw [run_migration, processed_foldl, (totals_foldl tasks (init_state tasks)).1]
    simp [init_state]
  · intro b
    rw [run_migration, bucket_processed_foldl, (totals_foldl tasks (init_state tasks)).2 b]
    simp [init_state]

/-- Witness for C3 at a concrete two-bucket run. -/
theorem c3_amended_counter_invariant_witness :
    (counters_consistent
      (([WorkerEvent.outcome "b1" "k1" "" true,
         WorkerEvent.outcome "b2" "k2" "err" false].take 1).foldl worker_step
        (init_state [WorkerEvent.outcome "b1" "k1" "" true,
                     WorkerEvent.outcome "b2" "k2" "err" false]))) ∧
    (run_migration [WorkerEvent.outcome "b1" "k1" "" true,
        WorkerEvent.outcome "b2" "k2" "err" false]).1.processed =
      (run_migration [WorkerEvent.outcome "b1" "k1" "" true,
        WorkerEvent.outcome "b2" "k2" "err" false]).1.totalFiles ∧
    (run_migration [WorkerEvent.outcome "b1" "k1" "" true,
        WorkerEvent.outcome "b2" "k2" "err" false]).1.bucketProcessed "b2" =
      (run_migration [WorkerEvent.outcome "b1" "k1" "" true,
        WorkerEvent.outcome "b2" "k2" "err" false]).1.bucketTotal "b2" := by
  have h := c3_amended_counter_invariant
    [WorkerEvent.outcome "b1" "k1" "" true, WorkerEvent.outcome "b2" "k2" "err" false]
    (by intro e he; fin_cases he <;> rfl)
  exact ⟨h.1 1, h.2.1, h.2.2 "b2"⟩

/-- An empty bucket list produces no tasks. -/
theorem rr_nil {α : Type} (i : Nat) : rr_go ([] : List (List α)) i = [] := by
  rw [rr_go]

/-- A single remaining bucket with the index on it is drained in order. -/
theorem rr_single_zero {α : Type} : ∀ (xs : List α), rr_go [xs] 0 = xs := by
  intro xs
  induction xs with
  | nil =>
    rw [rr_go]
    split
    · simp [rr_nil]
    · rename_i x1 rest1 heq
      simp [List.getD] at heq
  | cons x rest ih =>
    rw [rr_go]
    split
    · rename_i heq
      simp [List.getD] at heq
    · rename_i x1 rest1 heq
      simp [List.getD] at heq
      obtain ⟨h1, h2⟩ := heq
      subst h1; subst h2
      simp [ih]

/-- A single remaining bucket with a stale index 1 still wraps to index 0 and
is drained in order. -/
theorem rr_single_one {α : Type} : ∀ (xs : List α), rr_go [xs] 1 = xs := by
  intro xs
  cases xs with
  | nil =>
    rw [rr_go]
    split
    · simp [rr_nil]
    · rename_i x1 rest1 heq
      simp [List.getD] at heq
  | cons x rest =>
    rw [rr_go]
    split
    · rename_i heq
      simp [List.getD] at heq
    · rename_i x1 rest1 heq
      simp [List.getD] at heq
      obtain ⟨h1, h2⟩ := heq
      subst h1; subst h2
      simp [rr_single_zero]

/-- With the index on an exhausted second bucket, that bucket leaves the
rotation and the first is drained. -/
theorem rr_pair_empty_at_one {α : Type} (as : List α) :
    rr_go [as, []] 1 = as := by
  rw [rr_go]
  split
  · simp [rr_single_one]
  · rename_i x1 rest1 heq
    simp [List.getD] at heq

/-- Two buckets of which the second is exhausted: one element of the first is
taken, then the exhausted bucket is removed and the rest drained. -/
theorem rr_pair_empty_zero {α : Type} : ∀ (as : List α), rr_go [as, []] 0 = as := by
  intro as
  cases as with
  | nil =>
    rw [rr_go]
    split
    · simp [rr_single_zero]
    · rename_i x1 rest1 heq
      simp [List.getD] at heq
  | cons a rest =>
    rw [rr_go]
    split
    · rename_i heq
      simp [List.getD] at heq
    · rename_i x1 rest1 heq
      simp [List.getD] at heq
      obtain ⟨h1, h2⟩ := heq
      subst h1; subst h2
      simp [rr_pair_empty_at_one]

/-- With the index on a singleton second bucket, its one element is taken
next, before the first bucket's remainder. -/
theorem rr_pair_take_second {α : Type} (as : List α) (b : α) :
    rr_go [as, [b]] 1 = b :: as := by
  rw [rr_go]
  split
  · rename_i heq
    simp [List.getD] at heq
  · rename_i x1 rest1 heq
    simp [List.getD] at heq
    obtain ⟨h1, h2⟩ := heq
    subst h1; subst h2
    simp [rr_pair_empty_zero]

/-- An exhausted first bucket leaves the rotation and the second is drained. -/
theorem rr_first_empty_zero {α : Type} (as : List α) : rr_go [[], as] 0 = as := by
  rw [rr_go]
  split
  · simp [rr_single_zero]
  · rename_i x1 rest1 heq
    simp [List.getD] at heq

/-- With the index on the second bucket and the first exhausted, the second
bucket's head is taken and then the first bucket is dropped. -/
theorem rr_first_empty_one {α : Type} (a : α) (as : List α) :
    rr_go [[], a :: as] 1 = a :: as := by
  rw [rr_go]
  split
  · rename_i heq
    simp [List.getD] at heq
  · rename_i x1 rest1 heq
    simp [List.getD] at heq
    obtain ⟨h1, h2⟩ := heq
    subst h1; subst h2
    simp [rr_first_empty_zero]

/-- C8: the task-collection loop interleaves per-bucket sequences round-robin
— one task from each non-exhausted bucket in turn, an exhausted bucket leaving
the rotation — so with one bucket of `1 + n` objects and one bucket of a
single object, the single object is emitted first or second (depending on
which bucket the rotation starts with), never after the large bucket drains. -/
theorem c8_round_robin_interleaving {α : Type} (a : α) (as : List α) (b : α) :
    rr_interleave [a :: as, [b]] = a :: b :: as ∧
    rr_interleave [[b], a :: as] = b :: a :: as := by
  constructor
  · rw [rr_interleave, rr_go]
    split
    · rename_i heq
      simp [List.getD] at heq
    · rename_i x1 rest1 heq
      simp [List.getD] at heq
      obtain ⟨h1, h2⟩ := heq
      subst h1; subst h2
      simp [rr_pair_take_second]
  · rw [rr_interleave, rr_go]
    split
    · rename_i heq
      simp [List.getD] at heq
    · rename_i x1 rest1 heq
      simp [List.getD] at heq
      obtain ⟨h1, h2⟩ := heq
      subst h1; subst h2
      simp [rr_first_empty_one]

/-- A leading `dropWhile` leaves a list with a non-whitespace head intact. -/
theorem dropWhile_of_noLead (s : Chars) (h : noLeadWs s = true) :
    s.dropWhile isPySpace = s := by
  cases s with
  | nil => simp [noLeadWs] at h
  | cons c rest =>
    simp only [noLeadWs, Bool.not_eq_true'] at h
    rw [List.dropWhile_cons_of_neg (by simp [h])]

/-- Python `strip()` leaves a string intact when both its first and last
characters exist and are not whitespace. -/
theorem pyStripWs_eq (s : Chars) (h1 : noLeadWs s = true) (h2 : noTrailWs s = true) :
    pyStripWs s = s := by
  rw [pyStripWs, dropWhile_of_noLead s h1, dropTrailing,
      dropWhile_of_noLead s.reverse h2, List.reverse_reverse]

/-- `noLeadWs` only looks at the head of a non-empty list. -/
theorem noLeadWs_append (a : Chars) (ys : Chars) (h : a ≠ []) :
    noLeadWs (a ++ ys) = noLeadWs a := by
  cases a with
  | nil => exact absurd rfl h
  | cons c rest => rfl

/-- Splitting at the first tab recovers the two halves of a tab-joined pair
when the left half contains no tab. -/
theorem splitFirstTab_append : ∀ (a b : Chars), '\t' ∉ a →
    splitFirstTab (a ++ '\t' :: b) = some (a, b) := by
  intro a
  induction a with
  | nil => intro b _; simp [splitFirstTab]
  | cons c rest ih =>
    intro b h
    have hc : ¬ c = '\t' := by
      intro hc; exact h (by simp [hc])
    have hrest : '\t' ∉ rest := fun hr => h (List.mem_cons_of_mem c hr)
    simp [splitFirstTab, hc, ih b hrest]

/-- Parsing one written report line recovers the recorded pair, provided the
path does not begin with whitespace or contain a tab, and the message does
not end with whitespace. -/
theorem parse_failed_line_roundtrip (a b : Chars)
    (ha1 : noLeadWs a = true) (ha2 : '\t' ∉ a) (hb1 : noTrailWs b = true) :
    parse_failed_line (a ++ '\t' :: b) = Except.ok (some (a, b)) := by
  have hane : a ≠ [] := by
    intro h; rw [h] at ha1; simp [noLeadWs] at ha1
  have hbne : b ≠ [] := by
    intro h; rw [h] at hb1; simp [noTrailWs, noLeadWs] at hb1
  have hlead : noLeadWs (a ++ '\t' :: b) = true := by
    rw [noLeadWs_append a ('\t' :: b) hane]; exact ha1
  have htrail : noTrailWs (a ++ '\t' :: b) = true := by
    rw [noTrailWs, List.reverse_append, List.reverse_cons,
        noLeadWs_append (b.reverse ++ ['\t']) a.reverse (by simp),
        noLeadWs_append b.reverse ['\t'] (by simpa using hbne)]
    exact hb1
  have hne : a ++ '\t' :: b ≠ [] := by
    intro h
    exact hane (List.append_eq_nil.mp h).1
  rw [parse_failed_line]
  simp only [pyStripWs_eq (a ++ '\t' :: b) hlead htrail, if_neg hne,
      splitFirstTab_append a b ha2]

/-- Splitting off one newline-terminated line whose body contains neither a
newline nor a carriage return. -/
theorem splitLinesAux_append : ∀ (xs : Chars), '\n' ∉ xs → '\r' ∉ xs →
    ∀ (rest acc : Chars),
      splitLinesAux (xs ++ '\n' :: rest) acc
        = (acc.reverse ++ xs) :: splitLinesAux rest [] := by
  intro xs
  induction xs with
  | nil => intro _ _ rest acc; simp [splitLinesAux]
  | cons c xs ih =>
    intro hn hr rest acc
    have hc : ¬ c = '\n' := fun h => hn (by simp [h])
    have hcr : ¬ c = '\r' := fun h => hr (by simp [h])
    have hxs : '\n' ∉ xs := fun h => hn (List.mem_cons_of_mem c h)
    have hxsr : '\r' ∉ xs := fun h => hr (List.mem_cons_of_mem c h)
    rw [List.cons_append, splitLinesAux]
    · rw [ih hxs hxsr rest (c :: acc)]
      simp
    all_goals first
      | (intro h; exact hc h)
      | (intro h; exact hcr h)
      | (intro _ h _; exact hcr h)

/-- `splitLines` recovers the written lines one at a time. -/
theorem splitLines_append (xs : Chars) (hn : '\n' ∉ xs) (hr : '\r' ∉ xs) (rest : Chars) :
    splitLines (xs ++ '\n' :: rest) = xs :: splitLines rest := by
  rw [splitLines, splitLinesAux_append xs hn hr rest [], List.reverse_nil,
      List.nil_append, splitLines]

/-- C10 amended: the failed-file report round-trips — `load_failed_list` after
`generate_daily_report` returns exactly the recorded `(obs_path, error_msg)`
pairs in order — provided additionally that each recorded `obs_path` is
non-empty, does not begin with a character Python's `str.strip()` removes,
and contains no tab, newline or carriage return, and each `error_msg` is
non-empty, does not end with such a whitespace character, and contains no
newline or carriage return.  (The claim's own no-tab/no-newline conditions
alone are not enough: the loader reads with universal newlines and strips
each line, so a carriage return inside a field splits the record, and an
empty or whitespace-ending message makes the stripped line lose its tab.) -/
theorem c10_amended_failed_report_roundtrip :
    ∀ (failedList : List (Chars × Chars)),
      (∀ p ∈ failedList,
        noLeadWs p.1 = true ∧ '\t' ∉ p.1 ∧ '\n' ∉ p.1 ∧ '\r' ∉ p.1 ∧
        noTrailWs p.2 = true ∧ '\n' ∉ p.2 ∧ '\r' ∉ p.2) →
      load_failed_list (failed_report_content failedList) = Except.ok failedList := by
  intro failedList
  induction failedList with
  | nil => intro _; rfl
  | cons p l ih =>
    intro hall
    obtain ⟨ha1, ha2, ha3, ha4, hb1, hb2, hb3⟩ := hall p (List.mem_cons_self p l)
    have hl : ∀ q ∈ l, noLeadWs q.1 = true ∧ '\t' ∉ q.1 ∧ '\n' ∉ q.1 ∧ '\r' ∉ q.1 ∧
        noTrailWs q.2 = true ∧ '\n' ∉ q.2 ∧ '\r' ∉ q.2 :=
      fun q hq => hall q (List.mem_cons_of_mem p hq)
    rcases p with ⟨a, b⟩
    have hshape : failed_report_content ((a, b) :: l)
        = (a ++ '\t' :: b) ++ '\n' :: failed_report_content l := by
      simp [failed_report_content, List.append_assoc]
    have hnonl : '\n' ∉ a ++ '\t' :: b := by
      intro hmem
      rcases List.mem_append.mp hmem with h | h
      · exact ha3 h
      · rcases List.mem_cons.mp h with h | h
        · exact absurd h.symm (by decide)
        · exact hb2 h
    have hnonr : '\r' ∉ a ++ '\t' :: b := by
      intro hmem
      rcases List.mem_append.mp hmem with h | h
      · exact ha4 h
      · rcases List.mem_cons.mp h with h | h
        · exact absurd h.symm (by decide)
        · exact hb3 h
    rw [load_failed_list, hshape, splitLines_append _ hnonl hnonr, load_failed_aux,
        parse_failed_line_roundtrip a b ha1 ha2 hb1]
    have ihl := ih hl
    rw [load_failed_list] at ihl
    rw [ihl]

/-- Witness for C10 at a concrete failed list. -/
theorem c10_amended_failed_report_roundtrip_witness :
    load_failed_list (failed_report_content [(['a'], ['x', ' ', 'y']), (['b', 'c'], ['z'])])
      = Except.ok [(['a'], ['x', ' ', 'y']), (['b', 'c'], ['z'])] := by
  exact c10_amended_failed_report_roundtrip
    [(['a'], ['x', ' ', 'y']), (['b', 'c'], ['z'])] (by decide)

/-- C10 counterexample: an entry whose `obs_path` contains no tab or newline
and whose `error_msg` contains no newline (here the empty message, as recorded
by a failure with no error text) still fails to round-trip: the written line
`"a\t\n"` is stripped to `"a"`, the tab separator is gone, and
`load_failed_list` raises `ValueError` instead of returning the entry. -/
theorem c10_counterexample_empty_error_msg :
    ('\t' ∉ (['a'] : Chars)) ∧ ('\n' ∉ (['a'] : Chars)) ∧ ('\n' ∉ ([] : Chars)) ∧
    load_failed_list (failed_report_content [(['a'], [])]) = Except.error () := by
  exact ⟨by decide, by decide, by decide, rfl⟩

end HwObsLtOss
